import Mathlib

/-!
Verification of the SDET report tool's aggregation and classification core
(`sdet.py`) against its natural-language specification.

The Python dictionaries are embedded as insertion-ordered association lists
(`lookupA` / `updateA` mirror `dict` lookup and `dict.update` on a single
key: an existing key is overwritten in place, a fresh key is appended).
All functions are translated from the source of `sdet.py`.
-/

namespace SDET

/-- Lookup in an insertion-ordered association list (Python `dict` access /
`dict.get`). -/
def lookupA {α : Type} : List (String × α) → String → Option α
  | [], _ => none
  | p :: rest, k => if p.1 = k then some p.2 else lookupA rest k

/-- Single-key update of an insertion-ordered association list (Python
`dict.update` with one key / `dict[k] = v`): an existing key keeps its
position and gets the new value, a fresh key is appended at the end. -/
def updateA {α : Type} : List (String × α) → String → α → List (String × α)
  | [], k, v => [(k, v)]
  | p :: rest, k, v => if p.1 = k then (k, v) :: rest else p :: updateA rest k v

/-- One record of one platform's result document (`sdet.py` reads these from
the `data` array of each JSON file).  Optional fields model JSON keys that
may be absent; `status` is the key that `aggregate_all_data` writes into the
record (absent as loaded). -/
structure RawResult where
  sr_test_name : String
  sr_ts_id : String
  sr_test_cases : Option Nat
  sr_tests_failed : Option Nat
  sr_tap : Option String
  status : Option String
deriving DecidableEq

/-- One entry of the main aggregated dictionary built by
`aggregate_all_data`: the value stored under one test name. -/
structure AggEntry where
  name : String
  status : String
  platforms_id : List (String × RawResult)
deriving DecidableEq

/-- The main aggregated dictionary (`platforms_dkt_data` in `main`). -/
abbrev AggMap := List (String × AggEntry)

/-- Helper for `os.path.basename`: the part of the path after the last separator. -/
def basenameAux : List Char → List Char → List Char
  | [], acc => acc.reverse
  | c :: rest, acc => if c = '/' then basenameAux rest [] else basenameAux rest (c :: acc)

/-- Model of `os.path.basename(p)`. -/
def basename (p : String) : String := String.mk (basenameAux p.data [])

/-- Status computation `'OK' if test.get("sr_tests_failed", 0) == 0 else "FAILED"`
(`sdet.py` line 516). -/
def computeStatus (t : RawResult) : String :=
  if t.sr_tests_failed.getD 0 = 0 then "OK" else "FAILED"

/-- One iteration of the `for test in tests_dkt` loop of
`aggregate_all_data` (`sdet.py` lines 513-536). -/
def aggStep (main_dkt : AggMap) (t : RawResult) : AggMap :=
  match lookupA main_dkt (basename t.sr_test_name) with
  | some entry =>
      updateA main_dkt (basename t.sr_test_name)
        { entry with
          status :=
            if computeStatus t = "FAILED" ∧ entry.status ≠ "FAILED" then "FAILED"
            else entry.status
          platforms_id :=
            updateA entry.platforms_id t.sr_ts_id
              { t with status := some (computeStatus t) } }
  | none =>
      updateA main_dkt (basename t.sr_test_name)
        { name := basename t.sr_test_name
          status := computeStatus t
          platforms_id := [(t.sr_ts_id, { t with status := some (computeStatus t) })] }

/-- Model of `aggregate_all_data` (`sdet.py` lines 502-538): returns `none` (Python
`None`) when the test list is empty/falsy, otherwise the updated main
dictionary. -/
def aggregate_all_data (main_dkt : AggMap) (tests_dkt : List RawResult) : Option AggMap :=
  if tests_dkt.isEmpty then none
  else some (tests_dkt.foldl aggStep main_dkt)

/-- The overall status stored under `name` in an aggregated map, if any. -/
def statusOf (m : AggMap) (name : String) : Option String :=
  (lookupA m name).map AggEntry.status

/-- Every entry of the map carries an overall status of OK or FAILED. -/
def goodMap (m : AggMap) : Prop :=
  ∀ p ∈ m, p.2.status = "OK" ∨ p.2.status = "FAILED"

/-- The per-test record kept in the `failed`/`successful` buckets by
`requirement_1` (`sdet.py` lines 551-570): the overall status together with
the per-platform map holding only each platform record's `status` value. -/
structure TestInfo where
  status : String
  platforms_status : List (String × Option String)
deriving DecidableEq

/-- The pair of buckets built by `requirement_1` (`tests_status_dkt`). -/
structure StatusBuckets where
  failed : List (String × TestInfo)
  successful : List (String × TestInfo)
deriving DecidableEq

/-- The bucket record built for one aggregated entry (`test_info` in
`requirement_1`). -/
def mkTI (tv : AggEntry) : TestInfo :=
  { status := tv.status
    platforms_status := tv.platforms_id.map (fun q => (q.1, q.2.status)) }

/-- One iteration of the `for test_name, test_values` loop of
`requirement_1`. -/
def req1Step (buckets : StatusBuckets) (p : String × AggEntry) : StatusBuckets :=
  if p.2.status = "FAILED" then
    { buckets with failed := updateA buckets.failed p.1 (mkTI p.2) }
  else
    { buckets with successful := updateA buckets.successful p.1 (mkTI p.2) }

/-- Model of `requirement_1` (`sdet.py` lines 542-570): partition the aggregated map
into `failed` and `successful` buckets by overall status. -/
def requirement_1 (platforms_dkt_data : AggMap) : StatusBuckets :=
  platforms_dkt_data.foldl req1Step ⟨[], []⟩

/-- The bucket-sorting loop of `main` (`sdet.py` lines 741-754):
`for key in sorted(dkt): tmp[key] = dkt.get(key)`. -/
def sortBucket (b : List (String × TestInfo)) : List (String × Option TestInfo) :=
  (List.insertionSort (fun a b => a ≤ b) (b.map Prod.fst)).map (fun k => (k, lookupA b k))

/-- The summary buckets exposed by `main` after sorting. -/
structure SortedBuckets where
  failed : List (String × Option TestInfo)
  successful : List (String × Option TestInfo)
deriving DecidableEq

/-- The Status Classifier output as `main` exposes it: `requirement_1`
followed by alphabetic sorting of both buckets. -/
def sortedBuckets (plats : AggMap) : SortedBuckets :=
  ⟨sortBucket (requirement_1 plats).failed, sortBucket (requirement_1 plats).successful⟩

/-- Python `\s` on the ASCII range (whitespace characters matched by the
`re` patterns of `requirement_2`). -/
def isPySpace (c : Char) : Bool :=
  c = ' ' || c = '\t' || c = '\n' || c = '\r' || c = Char.ofNat 11 || c = Char.ofNat 12

/-- Does the regex `ok [0-9]+ -\s` match at the head of the char list? -/
def okAt (cs : List Char) : Bool :=
  match cs with
  | 'o' :: 'k' :: ' ' :: d :: rest =>
      d.isDigit &&
        (match (d :: rest).dropWhile Char.isDigit with
         | ' ' :: '-' :: c :: _ => isPySpace c
         | _ => false)
  | _ => false

/-- Does the regex `not ok [0-9]+ -\s` match at the head of the char list? -/
def notOkAt (cs : List Char) : Bool :=
  match cs with
  | 'n' :: 'o' :: 't' :: ' ' :: rest => okAt rest
  | _ => false

/-- Does the regex `# SKIP\s` match at the head of the char list? -/
def skipAt (cs : List Char) : Bool :=
  match cs with
  | '#' :: ' ' :: 'S' :: 'K' :: 'I' :: 'P' :: c :: _ => isPySpace c
  | _ => false

/-- Model of `re.search`: try the pattern at every start position. -/
def searchBy (p : List Char → Bool) : List Char → Bool
  | [] => p []
  | c :: rest => p (c :: rest) || searchBy p rest

/-- Model of `re.search(r'ok [0-9]+ -\s', line)` (`sdet.py` line 609). -/
def hasOk (line : String) : Bool := searchBy okAt line.data

/-- Model of `re.search(r'not ok [0-9]+ -\s', line)` (`sdet.py` line 613). -/
def hasNotOk (line : String) : Bool := searchBy notOkAt line.data

/-- Model of `re.search(r'# SKIP\s', line)` (`sdet.py` line 617). -/
def hasSkip (line : String) : Bool := searchBy skipAt line.data

/-- Python `str.split('\n')` on the character list, keeping empty parts. -/
def splitLinesAux : List Char → List Char → List (List Char)
  | [], cur => [cur.reverse]
  | c :: rest, cur =>
      if c = '\n' then cur.reverse :: splitLinesAux rest []
      else splitLinesAux rest (c :: cur)

/-- The three categorized scenario-line lists built by the
`for test_scenario in sr_tap.split('\n')` loop of `requirement_2`. -/
structure AllScenarios where
  ok : List String
  not_ok : List String
  skipped : List String
deriving DecidableEq

/-- The TAP-line classification loop of `requirement_2`
(`sdet.py` lines 606-618). -/
def all_scenarios_of (tap : String) : AllScenarios :=
  { ok := ((splitLinesAux tap.data []).map String.mk).filter hasOk
    not_ok := ((splitLinesAux tap.data []).map String.mk).filter hasNotOk
    skipped := ((splitLinesAux tap.data []).map String.mk).filter hasSkip }

/-- The per-platform detail record stored by `requirement_2` under
`platforms_run_status` (`sdet.py` lines 620-643). -/
structure PlatformRunStatus where
  scenarios : AllScenarios
  total_tests : Nat
  passed_tests : Int
  failed_tests : Nat
deriving DecidableEq

/-- The RawResult stored in the aggregated map for a (test, platform) pair:
`platforms_dkt_data.get(test_name, {}).get('platforms_id', {}).get(platform_id, {})`. -/
def recordOf (plats : AggMap) (tn pid : String) : Option RawResult :=
  (lookupA plats tn).bind (fun e => lookupA e.platforms_id pid)

/-- The `sr_tap` field fetched by `requirement_2` (`sdet.py` lines 592-593);
`none` models Python `None` (missing test, platform or field). -/
def tapOf (plats : AggMap) (tn pid : String) : Option String :=
  (recordOf plats tn pid).bind (fun r => r.sr_tap)

/-- The body of `requirement_2` for one (test, platform) pair
(`sdet.py` lines 591-643).  When `sr_tap` resolves to `None`, the call
`sr_tap.split('\n')` raises `AttributeError`; the exception is modelled as
`Except.error`. -/
def expandPair (plats : AggMap) (tn pid : String) : Except String PlatformRunStatus :=
  match tapOf plats tn pid with
  | none => .error "AttributeError"
  | some tap =>
      let total := ((recordOf plats tn pid).bind (fun r => r.sr_test_cases)).getD 0
      let failed := ((recordOf plats tn pid).bind (fun r => r.sr_tests_failed)).getD 0
      .ok { scenarios := all_scenarios_of tap
            total_tests := total
            passed_tests := (total : Int) - (failed : Int)
            failed_tests := failed }

/-- Per-platform detail map of one test (`platforms_run_status`). -/
abbrev DetailMap := List (String × PlatformRunStatus)

/-- Detail data per test of one bucket. -/
abbrev DetailBucket := List (String × DetailMap)

/-- The `for platform_id in platforms_ids` loop of `requirement_2`. -/
def expandPlatforms (plats : AggMap) (tn : String) :
    List (String × Option String) → DetailMap → Except String DetailMap
  | [], acc => .ok acc
  | q :: rest, acc =>
      match expandPair plats tn q.1 with
      | .error e => .error e
      | .ok prs => expandPlatforms plats tn rest (updateA acc q.1 prs)

/-- The body of `requirement_2` for one bucket entry (`test_values` holds
the per-platform status map).  A `none` bucket value crashes Python on
attribute access; also modelled as an error. -/
def expandTest (plats : AggMap) (tn : String) : Option TestInfo → Except String DetailMap
  | none => .error "TypeError"
  | some ti => expandPlatforms plats tn ti.platforms_status []

/-- The `for test_name, test_values` loop of `requirement_2` over one
bucket. -/
def expandBucket (plats : AggMap) :
    List (String × Option TestInfo) → DetailBucket → Except String DetailBucket
  | [], acc => .ok acc
  | p :: rest, acc =>
      match expandTest plats p.1 p.2 with
      | .error e => .error e
      | .ok d => expandBucket plats rest (updateA acc p.1 d)

/-- Model of `requirement_2` (`sdet.py` lines 574-645): expands scenario detail for
every test of both buckets.  An empty aggregated map makes the Python
function return `None` (falsy), which `main` treats as failure of the
detail step. -/
def requirement_2 (plats : AggMap) (bs : SortedBuckets) :
    Except String (DetailBucket × DetailBucket) :=
  if plats.isEmpty then .error "no data"
  else
    match expandBucket plats bs.failed [] with
    | .error e => .error e
    | .ok f =>
        match expandBucket plats bs.successful [] with
        | .error e => .error e
        | .ok s => .ok (f, s)

/-- The pipeline of `main` after loading (`sdet.py` lines 731-793): the
summary buckets are produced (and rendered) first; the detail-expansion
step runs afterwards, only for report types 2 and 3. -/
def runReport (plats : AggMap) (report_type : Nat) :
    SortedBuckets × Option (Except String (DetailBucket × DetailBucket)) :=
  (sortedBuckets plats,
    if report_type = 2 ∨ report_type = 3 then
      some (requirement_2 plats (sortedBuckets plats))
    else none)

/-- The top-level shape of one parsed input document, as far as the loader
looks at it: either a falsy value (empty object/array/string/null) or a
non-empty object whose `data` field holds the per-test records (`[]` when
the field is absent, matching `.get('data', [])`). -/
inductive JsonVal where
  | vEmpty : JsonVal
  | vObj : List RawResult → JsonVal
deriving DecidableEq

/-- One input file as seen by `json_to_dict`: missing on disk, unparsable
(raises `ValueError`), or a well-formed document. -/
inductive DocSource where
  | missingFile : DocSource
  | malformed : DocSource
  | wellFormed : JsonVal → DocSource
deriving DecidableEq

/-- Model of `json_to_dict` (`sdet.py` lines 463-498): `none` models the falsy
returns (`None`/`False`) for a missing file, a parse error, or an empty
document. -/
def json_to_dict : DocSource → Option JsonVal
  | .missingFile => none
  | .malformed => none
  | .wellFormed .vEmpty => none
  | .wellFormed (.vObj d) => some (.vObj d)

/-- Model of `platform_tests_data.get('data', [])` (`sdet.py` line 723). -/
def dataOf : JsonVal → List RawResult
  | .vEmpty => []
  | .vObj d => d

/-- The document-loading loop of `main` (`sdet.py` lines 707-729): each
file is parsed and folded into the aggregated map; any falsy parse result
or falsy aggregation result exits the program (`sys.exit(1)`), modelled as
`none`. -/
def loadAll : List DocSource → AggMap → Option AggMap
  | [], acc => some acc
  | d :: ds, acc =>
      match json_to_dict d with
      | none => none
      | some v =>
          match aggregate_all_data acc (dataOf v) with
          | none => none
          | some acc2 => loadAll ds acc2

/-- Loading followed by the Status Classifier: `none` means the run aborted
before any report output was produced. -/
def runSummary (docs : List DocSource) : Option SortedBuckets :=
  (loadAll docs []).map (fun m => sortedBuckets m)

/-- Concrete inputs used by the witnesses below. -/
def wRecOkP2 : RawResult :=
  ⟨"t1", "p2", some 5, some 0, some "ok 1 - a", none⟩

def wMainFailed : AggMap :=
  [("t1", ⟨"t1", "FAILED", []⟩)]

def wRecFailX : RawResult :=
  ⟨"x", "pA", some 4, some 1, some "not ok 1 - a", none⟩

def wRecOkY : RawResult :=
  ⟨"y", "pB", some 4, some 0, some "ok 1 - a", none⟩

def wPlatsC4 : AggMap :=
  [("b", ⟨"b", "OK", [("pB", wRecOkY)]⟩), ("a", ⟨"a", "FAILED", [("pA", wRecFailX)]⟩)]

def wRecTap10 : RawResult :=
  ⟨"t", "p", some 10, some 3, some "junk", some "FAILED"⟩

def wPlatsC5 : AggMap :=
  [("t", ⟨"t", "FAILED", [("p", wRecTap10)]⟩)]

def wRecNoTap : RawResult :=
  ⟨"t", "p", some 1, some 0, none, some "OK"⟩

def wPlatsC7 : AggMap :=
  [("t", ⟨"t", "OK", [("p", wRecNoTap)]⟩)]

def wDocGood : DocSource :=
  .wellFormed (.vObj [wRecOkY])

def wRecA : RawResult :=
  ⟨"a/t", "p1", some 2, some 0, some "ok 1 - a", none⟩

def wRecB : RawResult :=
  ⟨"b/t", "p2", some 2, some 2, some "not ok 1 - a", none⟩

def wRecC8 : RawResult :=
  ⟨"t", "p", some 1, some 0, some "x", none⟩

def wRecC10 : RawResult :=
  ⟨"t", "p", some 3, none, some "x", none⟩

end SDET

namespace SDET

theorem lookupA_nil {α : Type} (k : String) : lookupA ([] : List (String × α)) k = none := rfl

theorem lookupA_cons {α : Type} (p : String × α) (rest : List (String × α)) (k : String) :
    lookupA (p :: rest) k = if p.1 = k then some p.2 else lookupA rest k := rfl

theorem lookupA_updateA_self {α : Type} (l : List (String × α)) (k : String) (v : α) :
    lookupA (updateA l k v) k = some v := by
  induction l with
  | nil => simp [updateA, lookupA]
  | cons p rest ih =>
      by_cases h : p.1 = k
      · simp [updateA, h, lookupA]
      · simp [updateA, h, lookupA, ih]

theorem lookupA_updateA_ne {α : Type} (l : List (String × α)) (k k' : String) (v : α)
    (h : k ≠ k') : lookupA (updateA l k v) k' = lookupA l k' := by
  induction l with
  | nil => simp [updateA, lookupA, h]
  | cons p rest ih =>
      by_cases hp : p.1 = k
      · have hp' : p.1 ≠ k' := by rw [hp]; exact h
        simp [updateA, hp, lookupA, h, hp']
      · simp [updateA, hp, lookupA, ih]

theorem updateA_fresh {α : Type} (l : List (String × α)) (k : String) (v : α)
    (h : lookupA l k = none) : updateA l k v = l ++ [(k, v)] := by
  induction l with
  | nil => rfl
  | cons p rest ih =>
      rw [lookupA_cons] at h
      by_cases hp : p.1 = k
      · simp [hp] at h
      · simp [hp] at h
        simp [updateA, hp, ih h]

theorem lookupA_append {α : Type} (l1 l2 : List (String × α)) (k : String)
    (h : lookupA l1 k = none) : lookupA (l1 ++ l2) k = lookupA l2 k := by
  induction l1 with
  | nil => rfl
  | cons p rest ih =>
      rw [lookupA_cons] at h
      by_cases hp : p.1 = k
      · simp [hp] at h
      · simp [hp] at h
        simp [lookupA_cons, hp, ih h]

theorem lookupA_mem {α : Type} {l : List (String × α)} {k : String} {v : α}
    (h : lookupA l k = some v) : (k, v) ∈ l := by
  induction l with
  | nil => simp [lookupA] at h
  | cons p rest ih =>
      rw [lookupA_cons] at h
      by_cases hp : p.1 = k
      · simp only [hp, if_true, Option.some.injEq] at h
        exact List.mem_cons.mpr (Or.inl (by rw [← hp, ← h]))
      · simp only [hp, if_false] at h
        exact List.mem_cons_of_mem _ (ih h)

theorem mem_updateA {α : Type} {l : List (String × α)} {k : String} {v : α}
    {p : String × α} (h : p ∈ updateA l k v) : p ∈ l ∨ p = (k, v) := by
  induction l with
  | nil =>
      simp [updateA] at h
      right
      exact h
  | cons q rest ih =>
      by_cases hq : q.1 = k
      · simp [updateA, hq] at h
        rcases h with h | h
        · right; exact h
        · left; exact List.mem_cons_of_mem _ h
      · simp [updateA, hq] at h
        rcases h with h | h
        · left; simp [h]
        · rcases ih h with h2 | h2
          · left; exact List.mem_cons_of_mem _ h2
          · right; exact h2

theorem computeStatus_ok_or_failed (t : RawResult) :
    computeStatus t = "OK" ∨ computeStatus t = "FAILED" := by
  unfold computeStatus
  split
  · left; rfl
  · right; rfl

theorem computeStatus_failed_iff (t : RawResult) :
    computeStatus t = "FAILED" ↔ 0 < t.sr_tests_failed.getD 0 := by
  unfold computeStatus
  split
  · rename_i h
    constructor
    · intro hc; exact absurd hc (by decide)
    · intro hpos; omega
  · rename_i h
    constructor
    · intro _; omega
    · intro _; rfl

theorem statusOf_aggStep (m : AggMap) (t : RawResult) (name : String) :
    statusOf (aggStep m t) name =
      if basename t.sr_test_name = name then
        match statusOf m name with
        | none => some (computeStatus t)
        | some s =>
            some (if computeStatus t = "FAILED" ∧ s ≠ "FAILED" then "FAILED" else s)
      else statusOf m name := by
  unfold aggStep statusOf
  by_cases hn : basename t.sr_test_name = name
  · subst hn
    cases hl : lookupA m (basename t.sr_test_name) with
    | none => simp [hl, lookupA_updateA_self]
    | some entry => simp [hl, lookupA_updateA_self]
  · cases hl : lookupA m (basename t.sr_test_name) with
    | none => simp [hl, hn, lookupA_updateA_ne _ _ _ _ hn]
    | some entry => simp [hl, hn, lookupA_updateA_ne _ _ _ _ hn]

theorem statusOf_aggStep_failed_iff (m : AggMap) (t : RawResult) (name : String) :
    statusOf (aggStep m t) name = some "FAILED" ↔
      statusOf m name = some "FAILED" ∨
        (basename t.sr_test_name = name ∧ computeStatus t = "FAILED") := by
  rw [statusOf_aggStep]
  by_cases hn : basename t.sr_test_name = name
  · rw [if_pos hn]
    cases hs : statusOf m name with
    | none => simp [hn]
    | some s =>
        by_cases hf : computeStatus t = "FAILED"
        · by_cases hsf : s = "FAILED" <;> simp [hf, hsf, hn]
        · by_cases hsf : s = "FAILED" <;> simp [hf, hsf, hn]
  · simp [if_neg hn, hn]

theorem statusOf_foldl_failed_iff (l : List RawResult) :
    ∀ (m : AggMap) (name : String),
      statusOf (l.foldl aggStep m) name = some "FAILED" ↔
        statusOf m name = some "FAILED" ∨
          ∃ t ∈ l, basename t.sr_test_name = name ∧ computeStatus t = "FAILED" := by
  induction l with
  | nil => intro m name; simp
  | cons t l ih =>
      intro m name
      rw [List.foldl_cons, ih, statusOf_aggStep_failed_iff]
      constructor
      · rintro (((h | ⟨h1, h2⟩) | ⟨t', ht', h1, h2⟩))
        · exact Or.inl h
        · exact Or.inr ⟨t, List.mem_cons_self t l, h1, h2⟩
        · exact Or.inr ⟨t', List.mem_cons_of_mem _ ht', h1, h2⟩
      · rintro (h | ⟨t', ht', h1, h2⟩)
        · exact Or.inl (Or.inl h)
        · rcases List.mem_cons.mp ht' with rfl | ht2
          · exact Or.inl (Or.inr ⟨h1, h2⟩)
          · exact Or.inr ⟨t', ht2, h1, h2⟩

theorem goodMap_aggStep {m : AggMap} (h : goodMap m) (t : RawResult) :
    goodMap (aggStep m t) := by
  intro p hp
  unfold aggStep at hp
  cases hl : lookupA m (basename t.sr_test_name) with
  | some entry =>
      rw [hl] at hp
      rcases mem_updateA hp with h2 | h2
      · exact h p h2
      · rw [h2]
        by_cases hf : computeStatus t = "FAILED" ∧ entry.status ≠ "FAILED"
        · simp [hf]
        · simp only [if_neg hf]
          exact h _ (lookupA_mem hl)
  | none =>
      rw [hl] at hp
      rcases mem_updateA hp with h2 | h2
      · exact h p h2
      · rw [h2]
        exact computeStatus_ok_or_failed t

theorem goodMap_foldl {m : AggMap} (h : goodMap m) (l : List RawResult) :
    goodMap (l.foldl aggStep m) := by
  induction l generalizing m with
  | nil => exact h
  | cons t l ih => exact ih (goodMap_aggStep h t)

theorem statusOf_eq_some_of_lookupA {m : AggMap} {name : String} {e : AggEntry}
    (h : lookupA m name = some e) : statusOf m name = some e.status := by
  unfold statusOf
  rw [h]
  rfl

theorem lookupA_singleton_self {α : Type} (k : String) (v : α) :
    lookupA [(k, v)] k = some v :=
  lookupA_updateA_self [] k v

theorem updateA_length_some {α : Type} :
    ∀ {l : List (String × α)} {k : String} {v0 : α},
      lookupA l k = some v0 → ∀ v, (updateA l k v).length = l.length := by
  intro l
  induction l with
  | nil => intro k v0 h v; simp [lookupA] at h
  | cons p rest ih =>
      intro k v0 h v
      rw [lookupA_cons] at h
      by_cases hp : p.1 = k
      · simp [updateA, hp]
      · simp only [hp, if_false] at h
        simp [updateA, hp, ih h]

theorem aggStep_absent (m : AggMap) (t : RawResult)
    (hl : lookupA m (basename t.sr_test_name) = none) :
    aggStep m t = updateA m (basename t.sr_test_name)
      ⟨basename t.sr_test_name, computeStatus t,
        [(t.sr_ts_id, { t with status := some (computeStatus t) })]⟩ := by
  unfold aggStep
  rw [hl]

theorem aggStep_present (m : AggMap) (t : RawResult) {e : AggEntry}
    (hl : lookupA m (basename t.sr_test_name) = some e) :
    aggStep m t = updateA m (basename t.sr_test_name)
      { e with
        status :=
          if computeStatus t = "FAILED" ∧ e.status ≠ "FAILED" then "FAILED" else e.status
        platforms_id :=
          updateA e.platforms_id t.sr_ts_id { t with status := some (computeStatus t) } } := by
  unfold aggStep
  rw [hl]

/-- C1: for every AggregatedTest entry, once its overall status has become
FAILED, folding any subsequent RawResults with failed-count 0 (per-platform
status OK) through `aggregate_all_data` never changes the overall status
back to OK: the FAILED status is sticky. -/
theorem aggregate_failed_sticky (main_dkt : AggMap) (tests : List RawResult)
    (name : String) (e : AggEntry)
    (hlook : lookupA main_dkt name = some e) (hfail : e.status = "FAILED")
    (hok : ∀ t ∈ tests, t.sr_tests_failed.getD 0 = 0)
    (m' : AggMap) (hagg : aggregate_all_data main_dkt tests = some m') :
    ∃ e', lookupA m' name = some e' ∧ e'.status = "FAILED" := by
  have hm' : m' = tests.foldl aggStep main_dkt := by
    unfold aggregate_all_data at hagg
    split at hagg
    · simp at hagg
    · exact (Option.some.injEq _ _ ▸ hagg).symm
  subst hm'
  have hst : statusOf (tests.foldl aggStep main_dkt) name = some "FAILED" := by
    rw [statusOf_foldl_failed_iff]
    left
    rw [statusOf_eq_some_of_lookupA hlook, hfail]
  unfold statusOf at hst
  cases hl : lookupA (tests.foldl aggStep main_dkt) name with
  | none => rw [hl] at hst; simp at hst
  | some e' =>
      rw [hl] at hst
      exact ⟨e', rfl, by simpa using hst⟩

/-- Witness for C1: a concrete map with a FAILED entry for `t1` stays
FAILED after folding an OK result for platform `p2`. -/
theorem aggregate_failed_sticky_witness :
    ∃ e', lookupA (List.foldl aggStep wMainFailed [wRecOkP2]) "t1" = some e' ∧
      e'.status = "FAILED" :=
  aggregate_failed_sticky wMainFailed [wRecOkP2] "t1" ⟨"t1", "FAILED", []⟩
    (by decide) rfl (by decide) (List.foldl aggStep wMainFailed [wRecOkP2]) rfl

/-- C3: folding a sequence of RawResults (at most one per (test name,
platform id) pair) into an empty map, in any permutation order, yields for
each test name a FAILED overall status iff at least one record for that
name had failed-count > 0, and OK otherwise. -/
theorem aggregate_status_iff_some_failure (tests tests' : List RawResult)
    (hperm : tests'.Perm tests)
    (hdist : tests.Pairwise (fun a b =>
      ¬(basename a.sr_test_name = basename b.sr_test_name ∧ a.sr_ts_id = b.sr_ts_id)))
    (m : AggMap) (hagg : aggregate_all_data [] tests' = some m)
    (name : String) (e : AggEntry) (hlook : lookupA m name = some e) :
    (e.status = "FAILED" ↔
      ∃ t ∈ tests, basename t.sr_test_name = name ∧ 0 < t.sr_tests_failed.getD 0) ∧
    ((¬ ∃ t ∈ tests, basename t.sr_test_name = name ∧ 0 < t.sr_tests_failed.getD 0) →
      e.status = "OK") := by
  have hm : m = tests'.foldl aggStep [] := by
    unfold aggregate_all_data at hagg
    split at hagg
    · simp at hagg
    · exact (Option.some.injEq _ _ ▸ hagg).symm
  subst hm
  have hchar : statusOf (tests'.foldl aggStep []) name = some "FAILED" ↔
      ∃ t ∈ tests', basename t.sr_test_name = name ∧ computeStatus t = "FAILED" := by
    rw [statusOf_foldl_failed_iff]
    simp [statusOf, lookupA]
  have hst := statusOf_eq_some_of_lookupA hlook
  have hiff : e.status = "FAILED" ↔
      ∃ t ∈ tests, basename t.sr_test_name = name ∧ 0 < t.sr_tests_failed.getD 0 := by
    constructor
    · intro hf
      have := hchar.mp (by rw [hst, hf])
      rcases this with ⟨t, ht, h1, h2⟩
      exact ⟨t, hperm.mem_iff.mp ht, h1, (computeStatus_failed_iff t).mp h2⟩
    · rintro ⟨t, ht, h1, h2⟩
      have h3 := hchar.mpr ⟨t, hperm.mem_iff.mpr ht, h1, (computeStatus_failed_iff t).mpr h2⟩
      rw [hst] at h3
      simpa using h3
  refine ⟨hiff, fun hne => ?_⟩
  have hgood : goodMap (tests'.foldl aggStep []) :=
    goodMap_foldl (by intro p hp; cases hp) tests'
  rcases hgood _ (lookupA_mem hlook) with h | h
  · exact h
  · exact absurd (hiff.mp h) hne

/-- Witness for C3: two records under different test names folded in
swapped order; the entry for `x` is FAILED because its record failed. -/
theorem aggregate_status_iff_some_failure_witness :
    ((⟨"x", "FAILED", [("pA", ⟨"x", "pA", some 4, some 1, some "not ok 1 - a",
        some "FAILED"⟩)]⟩ : AggEntry).status = "FAILED" ↔
      ∃ t ∈ [wRecFailX, wRecOkY],
        basename t.sr_test_name = "x" ∧ 0 < t.sr_tests_failed.getD 0) ∧
    ((¬ ∃ t ∈ [wRecFailX, wRecOkY],
        basename t.sr_test_name = "x" ∧ 0 < t.sr_tests_failed.getD 0) →
      (⟨"x", "FAILED", [("pA", ⟨"x", "pA", some 4, some 1, some "not ok 1 - a",
        some "FAILED"⟩)]⟩ : AggEntry).status = "OK") :=
  aggregate_status_iff_some_failure [wRecFailX, wRecOkY] [wRecOkY, wRecFailX]
    (List.Perm.swap wRecFailX wRecOkY []) (by decide)
    (List.foldl aggStep [] [wRecOkY, wRecFailX]) rfl "x"
    ⟨"x", "FAILED", [("pA", ⟨"x", "pA", some 4, some 1, some "not ok 1 - a",
      some "FAILED"⟩)]⟩ (by decide)

/-- C9: the aggregated key is the base name of the raw test-name field, so
two records whose raw names share a base name are merged into the same
single AggregatedTest entry, silently and without error. -/
theorem basename_collision_merges (r1 r2 : RawResult)
    (h : basename r1.sr_test_name = basename r2.sr_test_name) :
    ∃ m, aggregate_all_data [] [r1, r2] = some m ∧ m.length = 1 ∧
      ∃ e, lookupA m (basename r1.sr_test_name) = some e ∧
        (∃ v, lookupA e.platforms_id r1.sr_ts_id = some v) ∧
        (∃ v, lookupA e.platforms_id r2.sr_ts_id = some v) := by
  have hl0 : lookupA ([] : AggMap) (basename r1.sr_test_name) = none := rfl
  have hm1 := aggStep_absent [] r1 hl0
  have hL1 : lookupA (aggStep [] r1) (basename r2.sr_test_name) =
      some ⟨basename r1.sr_test_name, computeStatus r1,
        [(r1.sr_ts_id, { r1 with status := some (computeStatus r1) })]⟩ := by
    rw [← h, hm1]
    exact lookupA_updateA_self _ _ _
  have hm2 := aggStep_present (aggStep [] r1) r2 hL1
  refine ⟨aggStep (aggStep [] r1) r2, rfl, ?_, ?_⟩
  · rw [hm2, updateA_length_some hL1, hm1]
    rfl
  · rw [hm2, h]
    refine ⟨_, lookupA_updateA_self _ _ _, ?_, ?_⟩
    · dsimp only
      by_cases hp : r1.sr_ts_id = r2.sr_ts_id
      · rw [hp]
        exact ⟨_, lookupA_updateA_self _ _ _⟩
      · rw [lookupA_updateA_ne _ _ _ _ (Ne.symm hp)]
        exact ⟨_, lookupA_singleton_self _ _⟩
    · dsimp only
      exact ⟨_, lookupA_updateA_self _ _ _⟩

/-- Witness for C9: `a/t` and `b/t` differ as full names but share the base
name `t`, so they land in one single entry with both platforms. -/
theorem basename_collision_merges_witness :
    ∃ m, aggregate_all_data [] [wRecA, wRecB] = some m ∧ m.length = 1 ∧
      ∃ e, lookupA m (basename wRecA.sr_test_name) = some e ∧
        (∃ v, lookupA e.platforms_id wRecA.sr_ts_id = some v) ∧
        (∃ v, lookupA e.platforms_id wRecB.sr_ts_id = some v) :=
  basename_collision_merges wRecA wRecB (by decide)

/-- C10: a record whose `sr_tests_failed` field is entirely absent is
treated as having failed-count 0: its per-platform status is OK and the
aggregation succeeds without error, leaving the test OK. -/
theorem absent_failed_count_is_ok (t : RawResult) (h : t.sr_tests_failed = none) :
    computeStatus t = "OK" ∧
    ∃ m, aggregate_all_data [] [t] = some m ∧
      ∃ e, lookupA m (basename t.sr_test_name) = some e ∧ e.status = "OK" := by
  have hc : computeStatus t = "OK" := by
    unfold computeStatus
    rw [h]
    rfl
  refine ⟨hc, aggStep [] t, rfl, ?_⟩
  have hl0 : lookupA ([] : AggMap) (basename t.sr_test_name) = none := rfl
  rw [aggStep_absent [] t hl0]
  exact ⟨_, lookupA_updateA_self _ _ _, hc⟩

/-- Witness for C10: a concrete record with no `sr_tests_failed` field. -/
theorem absent_failed_count_is_ok_witness :
    computeStatus wRecC10 = "OK" ∧
    ∃ m, aggregate_all_data [] [wRecC10] = some m ∧
      ∃ e, lookupA m (basename wRecC10.sr_test_name) = some e ∧ e.status = "OK" :=
  absent_failed_count_is_ok wRecC10 rfl

/-- C8 counterexample: the aggregator does NOT leave the input record
unchanged — after folding `wRecC8` (loaded with no `status` key), the
record stored in the map carries the written `status` field and is not
equal to the input record. -/
theorem aggregate_mutates_record_counterexample :
    ((lookupA (List.foldl aggStep [] [wRecC8]) "t").map
        (fun e => lookupA e.platforms_id "p")) =
      some (some { wRecC8 with status := some "OK" }) ∧
    ¬ ((lookupA (List.foldl aggStep [] [wRecC8]) "t").map
        (fun e => lookupA e.platforms_id "p")) = some (some wRecC8) := by
  decide

/-- C8 amended: the aggregator's fold preserves every originally-loaded
field of the record (test name, platform id, counts, scenario text) and
writes exactly one computed field into it: the per-platform `status`. -/
theorem aggregate_writes_only_status (main_dkt : AggMap) (t : RawResult) :
    ∃ e, lookupA (aggStep main_dkt t) (basename t.sr_test_name) = some e ∧
      ∃ r, lookupA e.platforms_id t.sr_ts_id = some r ∧
        r.sr_test_name = t.sr_test_name ∧ r.sr_ts_id = t.sr_ts_id ∧
        r.sr_test_cases = t.sr_test_cases ∧ r.sr_tests_failed = t.sr_tests_failed ∧
        r.sr_tap = t.sr_tap ∧ r.status = some (computeStatus t) := by
  cases hl : lookupA main_dkt (basename t.sr_test_name) with
  | some entry =>
      rw [aggStep_present main_dkt t hl]
      exact ⟨_, lookupA_updateA_self _ _ _,
        _, lookupA_updateA_self _ _ _, rfl, rfl, rfl, rfl, rfl, rfl⟩
  | none =>
      rw [aggStep_absent main_dkt t hl]
      exact ⟨_, lookupA_updateA_self _ _ _,
        _, lookupA_singleton_self _ _, rfl, rfl, rfl, rfl, rfl, rfl⟩

theorem req1_foldl (l : AggMap) :
    ∀ accF accS : List (String × TestInfo),
      (∀ k ∈ l.map Prod.fst, lookupA accF k = none) →
      (∀ k ∈ l.map Prod.fst, lookupA accS k = none) →
      (l.map Prod.fst).Nodup →
      l.foldl req1Step ⟨accF, accS⟩ =
        ⟨accF ++ (l.filter (fun p => decide (p.2.status = "FAILED"))).map
            (fun p => (p.1, mkTI p.2)),
          accS ++ (l.filter (fun p => !decide (p.2.status = "FAILED"))).map
            (fun p => (p.1, mkTI p.2))⟩ := by
  induction l with
  | nil => intro accF accS _ _ _; simp
  | cons p l ih =>
      intro accF accS hF hS hN
      rw [List.map_cons, List.nodup_cons] at hN
      have hFp : lookupA accF p.1 = none := hF p.1 (by simp)
      have hSp : lookupA accS p.1 = none := hS p.1 (by simp)
      rw [List.foldl_cons]
      by_cases hs : p.2.status = "FAILED"
      · have hstep : req1Step ⟨accF, accS⟩ p = ⟨accF ++ [(p.1, mkTI p.2)], accS⟩ := by
          unfold req1Step
          rw [if_pos hs, updateA_fresh _ _ _ hFp]
        have hF2 : ∀ k ∈ l.map Prod.fst, lookupA (accF ++ [(p.1, mkTI p.2)]) k = none := by
          intro k hk
          rw [lookupA_append _ _ _ (hF k (List.mem_cons_of_mem _ hk))]
          have hne : p.1 ≠ k := fun he => hN.1 (he ▸ hk)
          simp [lookupA, hne]
        have hS2 : ∀ k ∈ l.map Prod.fst, lookupA accS k = none := by
          intro k hk
          exact hS k (List.mem_cons_of_mem _ hk)
        rw [hstep, ih (accF ++ [(p.1, mkTI p.2)]) accS hF2 hS2 hN.2]
        simp [List.filter_cons, hs, List.append_assoc]
      · have hstep : req1Step ⟨accF, accS⟩ p = ⟨accF, accS ++ [(p.1, mkTI p.2)]⟩ := by
          unfold req1Step
          rw [if_neg hs, updateA_fresh _ _ _ hSp]
        have hS2 : ∀ k ∈ l.map Prod.fst, lookupA (accS ++ [(p.1, mkTI p.2)]) k = none := by
          intro k hk
          rw [lookupA_append _ _ _ (hS k (List.mem_cons_of_mem _ hk))]
          have hne : p.1 ≠ k := fun he => hN.1 (he ▸ hk)
          simp [lookupA, hne]
        have hF2 : ∀ k ∈ l.map Prod.fst, lookupA accF k = none := by
          intro k hk
          exact hF k (List.mem_cons_of_mem _ hk)
        rw [hstep, ih accF (accS ++ [(p.1, mkTI p.2)]) hF2 hS2 hN.2]
        simp [List.filter_cons, hs, List.append_assoc]

theorem requirement_1_eq (plats : AggMap) (hN : (plats.map Prod.fst).Nodup) :
    requirement_1 plats =
      ⟨(plats.filter (fun p => decide (p.2.status = "FAILED"))).map
          (fun p => (p.1, mkTI p.2)),
        (plats.filter (fun p => !decide (p.2.status = "FAILED"))).map
          (fun p => (p.1, mkTI p.2))⟩ := by
  have h := req1_foldl plats [] [] (fun k _ => rfl) (fun k _ => rfl) hN
  simpa [requirement_1] using h

theorem sortBucket_keys (b : List (String × TestInfo)) :
    (sortBucket b).map Prod.fst =
      List.insertionSort (fun a b => a ≤ b) (b.map Prod.fst) := by
  unfold sortBucket
  rw [List.map_map]
  exact List.map_id _

theorem sorted_lt_of_sorted_le_nodup : ∀ {l : List String},
    l.Sorted (fun a b => a ≤ b) → l.Nodup → l.Sorted (fun a b => a < b) := by
  intro l
  induction l with
  | nil => intro _ _; exact List.sorted_nil
  | cons a l ih =>
      intro hs hn
      rw [List.sorted_cons] at hs ⊢
      rw [List.nodup_cons] at hn
      exact ⟨fun b hb => lt_of_le_of_ne (hs.1 b hb) (fun he => hn.1 (he ▸ hb)),
        ih hs.2 hn.2⟩

theorem eq_of_mem_keys_nodup {α : Type} :
    ∀ {l : List (String × α)}, (l.map Prod.fst).Nodup →
      ∀ {p q : String × α}, p ∈ l → q ∈ l → p.1 = q.1 → p = q := by
  intro l
  induction l with
  | nil => intro _ p q hp _ _; cases hp
  | cons a l ih =>
      intro hN p q hp hq h
      rw [List.map_cons, List.nodup_cons] at hN
      rcases List.mem_cons.mp hp with hp1 | hp2 <;>
        rcases List.mem_cons.mp hq with hq1 | hq2
      · rw [hp1, hq1]
      · exfalso
        apply hN.1
        rw [hp1] at h
        rw [h]
        exact List.mem_map_of_mem Prod.fst hq2
      · exfalso
        apply hN.1
        rw [hq1] at h
        rw [← h]
        exact List.mem_map_of_mem Prod.fst hp2
      · exact ih hN.2 hp2 hq2 h

/-- C4: the exposed failed and successful buckets are each strictly
ascending by test name with no duplicates, and every test name of the input
map lands in exactly one bucket: in `failed` iff its overall status is
FAILED, in `successful` otherwise. -/
theorem classifier_buckets_sorted_partition (plats : AggMap)
    (hN : (plats.map Prod.fst).Nodup) :
    ((sortedBuckets plats).failed.map Prod.fst).Sorted (fun a b => a < b) ∧
    ((sortedBuckets plats).successful.map Prod.fst).Sorted (fun a b => a < b) ∧
    ((sortedBuckets plats).failed.map Prod.fst).Nodup ∧
    ((sortedBuckets plats).successful.map Prod.fst).Nodup ∧
    ∀ p ∈ plats,
      (p.1 ∈ (sortedBuckets plats).failed.map Prod.fst ↔ p.2.status = "FAILED") ∧
      (p.1 ∈ (sortedBuckets plats).successful.map Prod.fst ↔
        ¬ p.2.status = "FAILED") := by
  have hreq := requirement_1_eq plats hN
  have hfk : (sortedBuckets plats).failed.map Prod.fst =
      List.insertionSort (fun a b => a ≤ b)
        ((plats.filter (fun p => decide (p.2.status = "FAILED"))).map Prod.fst) := by
    unfold sortedBuckets
    rw [sortBucket_keys, hreq]
    dsimp only
    rw [List.map_map]
    rfl
  have hsk : (sortedBuckets plats).successful.map Prod.fst =
      List.insertionSort (fun a b => a ≤ b)
        ((plats.filter (fun p => !decide (p.2.status = "FAILED"))).map Prod.fst) := by
    unfold sortedBuckets
    rw [sortBucket_keys, hreq]
    dsimp only
    rw [List.map_map]
    rfl
  have hNF : ((plats.filter (fun p => decide (p.2.status = "FAILED"))).map Prod.fst).Nodup :=
    hN.sublist ((List.filter_sublist plats).map Prod.fst)
  have hNS : ((plats.filter (fun p => !decide (p.2.status = "FAILED"))).map Prod.fst).Nodup :=
    hN.sublist ((List.filter_sublist plats).map Prod.fst)
  have hPF := List.perm_insertionSort (fun a b : String => a ≤ b)
    ((plats.filter (fun p => decide (p.2.status = "FAILED"))).map Prod.fst)
  have hPS := List.perm_insertionSort (fun a b : String => a ≤ b)
    ((plats.filter (fun p => !decide (p.2.status = "FAILED"))).map Prod.fst)
  have hNF2 : ((sortedBuckets plats).failed.map Prod.fst).Nodup := by
    rw [hfk]
    exact hPF.nodup_iff.mpr hNF
  have hNS2 : ((sortedBuckets plats).successful.map Prod.fst).Nodup := by
    rw [hsk]
    exact hPS.nodup_iff.mpr hNS
  refine ⟨?_, ?_, hNF2, hNS2, ?_⟩
  · exact sorted_lt_of_sorted_le_nodup
      (hfk ▸ List.sorted_insertionSort _ _) hNF2
  · exact sorted_lt_of_sorted_le_nodup
      (hsk ▸ List.sorted_insertionSort _ _) hNS2
  · intro p hp
    constructor
    · rw [hfk, hPF.mem_iff]
      constructor
      · intro hmem
        rcases List.mem_map.mp hmem with ⟨q, hqF, hq1⟩
        have hq := List.mem_filter.mp hqF
        have hqe : q = p := eq_of_mem_keys_nodup hN hq.1 hp hq1
        have := hq.2
        rw [hqe] at this
        simpa using this
      · intro hs
        exact List.mem_map_of_mem Prod.fst
          (List.mem_filter.mpr ⟨hp, by simpa using hs⟩)
    · rw [hsk, hPS.mem_iff]
      constructor
      · intro hmem
        rcases List.mem_map.mp hmem with ⟨q, hqF, hq1⟩
        have hq := List.mem_filter.mp hqF
        have hqe : q = p := eq_of_mem_keys_nodup hN hq.1 hp hq1
        have := hq.2
        rw [hqe] at this
        simpa using this
      · intro hs
        exact List.mem_map_of_mem Prod.fst
          (List.mem_filter.mpr ⟨hp, by simpa using hs⟩)

/-- Witness for C4 at a concrete two-test map (one FAILED, one OK, keys out
of order). -/
theorem classifier_buckets_sorted_partition_witness :
    ((sortedBuckets wPlatsC4).failed.map Prod.fst).Sorted (fun a b => a < b) ∧
    ((sortedBuckets wPlatsC4).successful.map Prod.fst).Sorted (fun a b => a < b) ∧
    ((sortedBuckets wPlatsC4).failed.map Prod.fst).Nodup ∧
    ((sortedBuckets wPlatsC4).successful.map Prod.fst).Nodup ∧
    ∀ p ∈ wPlatsC4,
      (p.1 ∈ (sortedBuckets wPlatsC4).failed.map Prod.fst ↔ p.2.status = "FAILED") ∧
      (p.1 ∈ (sortedBuckets wPlatsC4).successful.map Prod.fst ↔
        ¬ p.2.status = "FAILED") :=
  classifier_buckets_sorted_partition wPlatsC4 (by decide)

/-- C5: for every (test, platform) pair successfully processed by the
detail expander, the stored passed count equals total minus failed exactly,
whatever the scenario text contains. -/
theorem expand_passed_eq_total_sub_failed (plats : AggMap) (tn pid : String)
    (prs : PlatformRunStatus) (h : expandPair plats tn pid = .ok prs) :
    prs.passed_tests = (prs.total_tests : Int) - (prs.failed_tests : Int) := by
  unfold expandPair at h
  cases htap : tapOf plats tn pid with
  | none => rw [htap] at h; simp at h
  | some tap =>
      rw [htap] at h
      have h2 := h
      injection h2 with h3
      rw [← h3]

/-- Witness for C5: total=10, failed=3 gives passed=7 on a record whose
scenario text matches no TAP pattern at all. -/
theorem expand_passed_eq_total_sub_failed_witness :
    (⟨⟨[], [], []⟩, 10, 7, 3⟩ : PlatformRunStatus).passed_tests =
      ((⟨⟨[], [], []⟩, 10, 7, 3⟩ : PlatformRunStatus).total_tests : Int) -
        ((⟨⟨[], [], []⟩, 10, 7, 3⟩ : PlatformRunStatus).failed_tests : Int) :=
  expand_passed_eq_total_sub_failed wPlatsC5 "t" "p" ⟨⟨[], [], []⟩, 10, 7, 3⟩ rfl

theorem expandPair_error_of_tap_none {plats : AggMap} {tn pid : String}
    (htap : tapOf plats tn pid = none) :
    expandPair plats tn pid = .error "AttributeError" := by
  unfold expandPair
  rw [htap]

theorem expandPlatforms_error {plats : AggMap} {tn : String} {pid : String}
    {s : Option String} :
    ∀ (qs : List (String × Option String)) (acc : DetailMap),
      (pid, s) ∈ qs → expandPair plats tn pid = .error "AttributeError" →
      ∃ e, expandPlatforms plats tn qs acc = .error e := by
  intro qs
  induction qs with
  | nil => intro acc h _; cases h
  | cons q rest ih =>
      intro acc hmem herr
      unfold expandPlatforms
      cases hq : expandPair plats tn q.1 with
      | error e => exact ⟨e, rfl⟩
      | ok prs =>
          rcases List.mem_cons.mp hmem with h1 | h1
          · rw [← h1] at hq
            dsimp only at hq
            rw [herr] at hq
            simp at hq
          · exact ih _ h1 herr

theorem expandTest_error {plats : AggMap} {tn : String} {tiOpt : Option TestInfo}
    {ti : TestInfo} {pid : String} {s : Option String}
    (hti : tiOpt = some ti) (hpid : (pid, s) ∈ ti.platforms_status)
    (htap : tapOf plats tn pid = none) :
    ∃ e, expandTest plats tn tiOpt = .error e := by
  subst hti
  unfold expandTest
  exact expandPlatforms_error _ _ hpid (expandPair_error_of_tap_none htap)

theorem expandBucket_error {plats : AggMap} {p : String × Option TestInfo} :
    ∀ (bucket : List (String × Option TestInfo)) (acc : DetailBucket),
      p ∈ bucket → (∃ e0, expandTest plats p.1 p.2 = .error e0) →
      ∃ e, expandBucket plats bucket acc = .error e := by
  intro bucket
  induction bucket with
  | nil => intro acc h _; cases h
  | cons p0 rest ih =>
      intro acc hmem herr
      unfold expandBucket
      cases hq : expandTest plats p0.1 p0.2 with
      | error e => exact ⟨e, rfl⟩
      | ok d =>
          rcases List.mem_cons.mp hmem with h1 | h1
          · obtain ⟨e0, he0⟩ := herr
            rw [← h1] at hq
            rw [he0] at hq
            simp at hq
          · exact ih _ h1 herr

theorem requirement_2_error {plats : AggMap} {bs : SortedBuckets}
    (hplats : plats ≠ []) {p : String × Option TestInfo}
    (hp : p ∈ bs.failed ++ bs.successful)
    (herr : ∃ e0, expandTest plats p.1 p.2 = .error e0) :
    ∃ e, requirement_2 plats bs = .error e := by
  unfold requirement_2
  have hie : ¬(plats.isEmpty = true) := by
    cases plats
    · exact absurd rfl hplats
    · simp [List.isEmpty]
  rw [if_neg hie]
  rcases List.mem_append.mp hp with h1 | h1
  · obtain ⟨e, he⟩ := expandBucket_error bs.failed [] h1 herr
    rw [he]
    exact ⟨e, rfl⟩
  · cases hf : expandBucket plats bs.failed [] with
    | error e => exact ⟨e, rfl⟩
    | ok f =>
        obtain ⟨e, he⟩ := expandBucket_error bs.successful [] h1 herr
        rw [he]
        exact ⟨e, rfl⟩

/-- C7: when the `sr_tap` field is absent for some (test, platform) pair
visited by the detail expansion, `requirement_2` aborts with an error, while
the summary-level output produced before it is the untouched Status
Classifier result: the failure is fatal only to the detail step. -/
theorem missing_tap_fatal_only_to_detail_step (plats : AggMap) (rt : Nat)
    (hrt : rt = 2 ∨ rt = 3)
    (p : String × Option TestInfo) (ti : TestInfo) (pid : String) (s : Option String)
    (hp : p ∈ (sortedBuckets plats).failed ++ (sortedBuckets plats).successful)
    (hti : p.2 = some ti) (hpid : (pid, s) ∈ ti.platforms_status)
    (htap : tapOf plats p.1 pid = none) :
    (∃ e, (runReport plats rt).2 = some (Except.error e)) ∧
    (runReport plats rt).1 = sortedBuckets plats := by
  have hplats : plats ≠ [] := by
    intro hnil
    subst hnil
    have hempty : (sortedBuckets ([] : AggMap)).failed ++
        (sortedBuckets ([] : AggMap)).successful =
        ([] : List (String × Option TestInfo)) := rfl
    rw [hempty] at hp
    cases hp
  have herr := expandTest_error hti hpid htap
  obtain ⟨e, he⟩ := requirement_2_error hplats hp herr
  refine ⟨⟨e, ?_⟩, rfl⟩
  unfold runReport
  dsimp only
  rw [if_pos hrt, he]

/-- Witness for C7: one OK test whose stored record has no `sr_tap` field;
report type 2 triggers detail expansion, which errors, while the summary
stays the classifier output. -/
theorem missing_tap_fatal_only_to_detail_step_witness :
    (∃ e, (runReport wPlatsC7 2).2 = some (Except.error e)) ∧
    (runReport wPlatsC7 2).1 = sortedBuckets wPlatsC7 :=
  missing_tap_fatal_only_to_detail_step wPlatsC7 2 (Or.inl rfl)
    ("t", some ⟨"OK", [("p", some "OK")]⟩) ⟨"OK", [("p", some "OK")]⟩ "p" (some "OK")
    (by decide) rfl (by decide) (by decide)

theorem loadAll_none_of_bad :
    ∀ (docs : List DocSource) (acc : AggMap) (d : DocSource),
      d ∈ docs → json_to_dict d = none → loadAll docs acc = none := by
  intro docs
  induction docs with
  | nil => intro acc d h _; cases h
  | cons d0 ds ih =>
      intro acc d hmem hbad
      unfold loadAll
      cases hj : json_to_dict d0 with
      | none => rfl
      | some v =>
          dsimp only
          rcases List.mem_cons.mp hmem with h1 | h1
          · rw [← h1] at hj
            rw [hbad] at hj
            simp at hj
          · cases ha : aggregate_all_data acc (dataOf v) with
            | none => rfl
            | some acc2 => exact ih acc2 d h1 hbad

/-- C6: a document that fails to parse or resolves to an empty value makes
the whole run abort: no summary output is produced and classification never
runs on a partial platform set. -/
theorem malformed_or_empty_input_aborts_run (docs : List DocSource) (d : DocSource)
    (hmem : d ∈ docs)
    (hbad : d = DocSource.malformed ∨ d = DocSource.wellFormed JsonVal.vEmpty) :
    runSummary docs = none := by
  have hjd : json_to_dict d = none := by
    rcases hbad with h | h <;> rw [h] <;> rfl
  unfold runSummary
  rw [loadAll_none_of_bad docs [] d hmem hjd]
  rfl

/-- Witness for C6: a good document followed by an unparsable one still
aborts the whole run. -/
theorem malformed_or_empty_input_aborts_run_witness :
    runSummary [wDocGood, DocSource.malformed] = none :=
  malformed_or_empty_input_aborts_run [wDocGood, DocSource.malformed]
    DocSource.malformed (by decide) (Or.inl rfl)

/-- C2, evaluated at the failing input: the classifier of `requirement_2`
appends the line `not ok 2 - boom` to BOTH the ok list and the not-ok list
(`re.search` finds `ok 2 - ` inside the line), contradicting the claim that
such a line is appended only to the not-ok list. -/
theorem tap_not_ok_line_lands_in_both_lists :
    (all_scenarios_of "not ok 2 - boom").ok = ["not ok 2 - boom"] ∧
    (all_scenarios_of "not ok 2 - boom").not_ok = ["not ok 2 - boom"] ∧
    (all_scenarios_of "not ok 2 - boom").skipped = [] := by
  decide

end SDET
